import Mathlib

/-!
Shallow embedding of `magic-nix-cache/src/flakehub.rs`: the bootstrap
procedure `init_cache` and the enqueue gateway `enqueue_paths`.

External collaborators (the `netrc_rs` parser, the `attic_client` push
session, `serde` JSON decoding, `reqwest`) are not part of the repository;
they are modelled from the specification where the claims depend on them,
each such definition carrying a doc comment saying so.  I/O and network
activity is made observable as an explicit list of effects, and each run of
`init_cache` is a pure function of an environment that records what the
file system, the process environment and the two servers would answer.
-/

namespace MagicNixCache

/-- URL model: the `url::Url` type is external; the code only uses its host
component (`Url::host()`), its textual rendering (`Display` / `to_string`)
and `Url::join`.  Join is modelled as appending the path fragment to the
rendered base, which is what it does for the slash-terminated bases used
here. -/
structure Url where
  host : Option String
  text : String
deriving DecidableEq

def Url.join (u : Url) (p : String) : Url :=
  { host := u.host, text := u.text ++ p }

/-- One netrc machine entry, as produced by the external `netrc_rs` crate:
its `name`, `login` and `password` fields are all optional. -/
structure Machine where
  name : Option String
  login : Option String
  password : Option String
deriving DecidableEq

/-- Split a character list into maximal whitespace-free words. -/
def tokensGo : List Char → List Char → List String
  | [], cur => if cur.isEmpty then [] else [String.mk cur.reverse]
  | c :: rest, cur =>
      if c.isWhitespace then
        if cur.isEmpty then tokensGo rest []
        else String.mk cur.reverse :: tokensGo rest []
      else tokensGo rest (c :: cur)

/-- Modelled from the spec: the credential-file format of §6 — the file is a
sequence of whitespace-separated tokens, `machine <host>` opening an entry
and `login <value>` / `password <value>` filling its fields (the `netrc_rs`
parser consumed by `init_cache` is external to the repository). -/
def netrcTokens (s : String) : List String :=
  tokensGo s.data []

def flushMachine : Option Machine → List Machine
  | none => []
  | some m => [m]

/-- Keyword whose value the netrc parser expects in the next token. -/
inductive NetrcKey where
  | machineKey
  | loginKey
  | passwordKey
deriving DecidableEq

/-- State of the netrc token scan: finished entries, the entry being built,
and the keyword awaiting its value, if any. -/
structure NetrcAcc where
  done : List Machine
  cur : Option Machine
  expect : Option NetrcKey
deriving DecidableEq

/-- Modelled from the spec: one token of netrc parsing — a `machine` token
closes the current entry and opens a new one named by the following token;
`login` and `password` set the corresponding field of the current entry from
the following token. -/
def netrcStep (acc : NetrcAcc) (tok : String) : NetrcAcc :=
  match acc.expect with
  | some .machineKey =>
      { done := acc.done, cur := some ⟨some tok, none, none⟩, expect := none }
  | some .loginKey =>
      match acc.cur with
      | some m => { acc with cur := some { m with login := some tok }, expect := none }
      | none => { acc with expect := none }
  | some .passwordKey =>
      match acc.cur with
      | some m => { acc with cur := some { m with password := some tok }, expect := none }
      | none => { acc with expect := none }
  | none =>
      if tok = "machine" then
        { done := acc.done ++ flushMachine acc.cur, cur := none,
          expect := some .machineKey }
      else if tok = "login" then { acc with expect := some .loginKey }
      else if tok = "password" then { acc with expect := some .passwordKey }
      else acc

/-- Modelled from the spec: `netrc_rs::Netrc::parse(contents, false).machines`. -/
def netrcMachines (contents : String) : List Machine :=
  let acc := (netrcTokens contents).foldl netrcStep
    { done := [], cur := none, expect := none }
  acc.done ++ flushMachine acc.cur

/-- The server-supplied cache configuration is opaque to this core
(`attic_client` type, decoded from the response JSON). -/
structure CacheConfig where
  raw : String
deriving DecidableEq

/-- Modelled from the spec: the structured API error that
`ApiError::try_from_response` decodes from a failed cache-server response;
opaque except that it preserves the server's error payload. -/
structure ApiError where
  payload : String
deriving DecidableEq

/-- Modelled from the spec: the error taxonomy of §7, mirroring the variants
of `crate::error::Error` that `flakehub.rs` constructs (the `error` module is
not among the provided sources). -/
inductive Error where
  | ioErr : String → Error
  | netrcErr : String → Error
  | missingCreds : String → Error
  | badUrl : Url → Error
  | config : String → Error
  | getCacheName : Nat → String → Error
  | api : ApiError → Error
  | reqwestErr : String → Error
deriving DecidableEq

/-- JSON body of a successful metadata response (`ProjectInfo` in the
source); the two UUIDs are carried in their textual rendering. -/
structure ProjectInfo where
  organization_uuid_v7 : String
  project_uuid_v7 : String
deriving DecidableEq

structure FetchResponse where
  status : Nat
  body : String
deriving DecidableEq

-- status.is_success of reqwest: 2xx.
def statusIsSuccess (s : Nat) : Bool :=
  200 ≤ s && s < 300

/-- Validity of a byte of an HTTP header value, as checked by
`http::HeaderValue::from_str`: horizontal tab, or any byte that is at least
32 and is not DEL (127). -/
def isValidHeaderByte (c : Char) : Bool :=
  c == '\t' || (32 ≤ c.toNat && c.toNat ≠ 127)

def isValidHeaderValue (s : String) : Bool :=
  s.toList.all isValidHeaderByte

/-- The bearer-token HTTP client built by `build_http_client`; only its
authorization header is observable. -/
structure HttpClient where
  authorization : String
deriving DecidableEq

/-- Model of `build_http_client` (nested fn of `init_cache`): builds the
bearer-token client.  `HeaderValue::from_str(&format!("Bearer ...", password)).unwrap()`
panics when the rendered value is not a valid header value; the panic is
modelled as `none`. -/
def build_http_client (password : String) : Option HttpClient :=
  if isValidHeaderValue ("Bearer " ++ password) then
    some { authorization := "Bearer " ++ password }
  else
    none

/-- Client of `attic_client::api::ApiClient::from_server_config`: records
the endpoint and the raw token, as built at that call in the source. -/
structure ApiClient where
  endpoint : String
  token : Option String
deriving DecidableEq

structure PushConfig where
  num_workers : Nat
  force_preamble : Bool
deriving DecidableEq

structure PushSessionConfig where
  no_closure : Bool
  ignore_upstream_cache_filter : Bool
deriving DecidableEq

deriving instance DecidableEq for Except

/-- Modelled from the spec: the opaque push session of §4.2
(`attic_client::push::PushSession` is external).  It records its
construction inputs; `rejection` is its health state — `none` while the
session accepts batches, `some e` once it is shut down or in an
unrecoverable error state. -/
structure PushSession where
  cache : String
  cacheConfig : Except Error CacheConfig
  api : ApiClient
  config : PushConfig
  sessionConfig : PushSessionConfig
  rejection : Option Error
deriving DecidableEq

/-- Fixed push policy of the source: 5 workers, no forced preamble. -/
def push_config : PushConfig :=
  { num_workers := 5, force_preamble := false }

/-- Fixed session policy of the source: closure expansion enabled, upstream
cache filtering not bypassed. -/
def push_session_config : PushSessionConfig :=
  { no_closure := false, ignore_upstream_cache_filter := false }

/-- Modelled from the spec: `Pusher::new(...).into_push_session(...)` — a
freshly built session records its inputs and is healthy. -/
def mkPushSession (cache : String) (cache_config : Except Error CacheConfig)
    (api : ApiClient) : PushSession :=
  { cache := cache, cacheConfig := cache_config, api := api,
    config := push_config, sessionConfig := push_session_config,
    rejection := none }

/-- Modelled from the spec: §4.2 — submitting an empty batch succeeds
trivially; a non-empty batch is rejected exactly when the session is in a
rejected state, and the session's own error is returned verbatim. -/
def PushSession.queue_many (s : PushSession) (store_paths : List String) :
    Except Error Unit :=
  if store_paths.isEmpty then .ok ()
  else
    match s.rejection with
    | some e => .error e
    | none => .ok ()

abbrev StorePath := String

structure State where
  substituter : Url
  push_session : PushSession
deriving DecidableEq

/-- Observable side effects of one `init_cache` run: bytes appended to the
netrc file, and HTTP GET requests issued (identified by their target URL). -/
inductive Effect where
  | fileAppend : String → Effect
  | httpGet : String → Effect
deriving DecidableEq

/-- Outcome of a run: a typed result, or a panic (`unwrap` / `expect`). -/
inductive Outcome where
  | ok : State → Outcome
  | err : Error → Outcome
  | panicked : String → Outcome
deriving DecidableEq

/-- Environment of one `init_cache` run: what the file system, the process
environment and the two servers answer, plus the external decoders
(`serde` for `ProjectInfo` and the cache configuration,
`ApiError::try_from_response` for failed cache-server responses). -/
structure Env where
  netrcFile : Option String
  github_repository : Option String
  metadataResponse : Except Error FetchResponse
  cacheConfigResponse : Except Error FetchResponse
  decodeProjectInfo : String → Option ProjectInfo
  decodeCacheConfig : String → Option CacheConfig
  decodeApiError : FetchResponse → Option ApiError

/-- The `cache_name` block of `init_cache` (source lines 113–148): read
`GITHUB_REPOSITORY`, build the `project/...` URL, GET it with basic auth,
fail on non-2xx with `Error::GetCacheName(status, body)`, decode
`ProjectInfo` and render `org:project`. -/
def cacheNameBlock (env : Env) (flakehub_api_server : Url) :
    Except Error String × List Effect :=
  match env.github_repository with
  | none =>
      (.error (.config "GITHUB_REPOSITORY environment variable is not set"), [])
  | some github_repo =>
      let url := flakehub_api_server.join ("project/" ++ github_repo)
      match env.metadataResponse with
      | .error e => (.error e, [.httpGet url.text])
      | .ok response =>
          if statusIsSuccess response.status then
            match env.decodeProjectInfo response.body with
            | none =>
                (.error (.reqwestErr "error decoding response body"),
                 [.httpGet url.text])
            | some project_info =>
                (.ok (project_info.organization_uuid_v7 ++ ":" ++
                        project_info.project_uuid_v7),
                 [.httpGet url.text])
          else
            (.error (.getCacheName response.status response.body),
             [.httpGet url.text])

/-- The `cache_config` block of `init_cache` (source lines 163–180): GET the
cache server's cache-config endpoint with the bearer client.  On 2xx the
body is decoded (a decode failure propagates out of `init_cache`); on
non-2xx the structured `ApiError` is decoded (its own failure propagates)
and — exactly as in the source, where the block has no trailing `?` — the
result is *bound* as an `Except` value, not returned as an error.  The outer
`Except` is what propagates out of `init_cache`; the inner one is the value
bound to `cache_config`. -/
def cacheConfigBlock (env : Env) (flakehub_cache_server : Url)
    (cache : String) : Except Error (Except Error CacheConfig) × List Effect :=
  let endpoint := (flakehub_cache_server.join "_api/v1/cache-config/").join cache
  match env.cacheConfigResponse with
  | .error e => (.error e, [.httpGet endpoint.text])
  | .ok res =>
      if statusIsSuccess res.status then
        match env.decodeCacheConfig res.body with
        | none =>
            (.error (.reqwestErr "error decoding response body"),
             [.httpGet endpoint.text])
        | some cache_config => (.ok (.ok cache_config), [.httpGet endpoint.text])
      else
        match env.decodeApiError res with
        | none =>
            (.error (.reqwestErr "error decoding api error from response"),
             [.httpGet endpoint.text])
        | some api_error =>
            (.ok (.error (.api api_error)), [.httpGet endpoint.text])

/-- The netrc entry bytes written by `init_cache` for the cache server —
the rendering of the format string at source lines 88–91: a leading
newline, the `machine ... login ... password ...` line, and a closing
newline plus a blank line. -/
def netrcAppendEntry (host login password : String) : String :=
  "\nmachine " ++ host ++ " login " ++ login ++
    " password " ++ password ++ "\n\n"

/-- Tail of `init_cache` after the credential steps (source lines 112–206):
resolve the cache name, build the `ApiClient`, run the cache-config block,
and build the push session and the final `State`.  Note that the bound
`cache_config` is an `Except` value (the source block lacks a trailing
question mark), and it flows into the session as-is. -/
def initCacheSession (env : Env) (flakehub_api_server : Url)
    (flakehub_cache_server : Url) (flakehub_netrc_entry : Machine) :
    Outcome × List Effect :=
  match cacheNameBlock env flakehub_api_server with
  | (.error e, eff1) => (.err e, eff1)
  | (.ok cache, eff1) =>
    let api : ApiClient :=
      { endpoint := flakehub_cache_server.text,
        token := flakehub_netrc_entry.password }
    match cacheConfigBlock env flakehub_cache_server cache with
    | (.error e, eff2) => (.err e, eff1 ++ eff2)
    | (.ok cache_config, eff2) =>
        let push_session := mkPushSession cache cache_config api
        (.ok { substituter := flakehub_cache_server,
               push_session := push_session },
         eff1 ++ eff2)

/-- Embedding of `init_cache` (source lines 31–206), as a pure function of
the run environment.  Every step mirrors the source in order: read and parse the
netrc file; find the entry for the API server's host; compute the cache
server's hostname; check login and password; append a netrc entry for the
cache server when absent; build the bearer client (panics on an invalid
header value); then `initCacheSession` for the remaining steps. -/
def init_cache (env : Env) (flakehub_api_server : Url)
    (flakehub_cache_server : Url) : Outcome × List Effect :=
  match env.netrcFile with
  | none => (.err (.ioErr "failed to open or read the netrc file"), [])
  | some netrc_contents =>
    let netrc := netrcMachines netrc_contents
    match netrc.find? (fun machine => machine.name == flakehub_api_server.host) with
    | none => (.err (.missingCreds flakehub_api_server.text), [])
    | some flakehub_netrc_entry =>
      match flakehub_cache_server.host with
      | none => (.err (.badUrl flakehub_cache_server), [])
      | some flakehub_cache_server_hostname =>
        match flakehub_netrc_entry.login with
        | none =>
            (.err (.config ("netrc file does not contain a login for \x27" ++
              flakehub_api_server.text ++ "\x27")), [])
        | some flakehub_login =>
          match flakehub_netrc_entry.password with
          | none =>
              (.err (.config ("netrc file does not contain a password for \x27" ++
                flakehub_api_server.text ++ "\x27")), [])
          | some flakehub_password =>
            let appendEffects : List Effect :=
              if netrc.any
                  (fun machine => machine.name == some flakehub_cache_server_hostname)
              then []
              else [.fileAppend (netrcAppendEntry flakehub_cache_server_hostname
                      flakehub_login flakehub_password)]
            match build_http_client flakehub_password with
            | none =>
                (.panicked "HeaderValue from_str unwrap failed", appendEffects)
            | some _flakehub_client =>
              let rest := initCacheSession env flakehub_api_server
                flakehub_cache_server flakehub_netrc_entry
              (rest.1, appendEffects ++ rest.2)

/-- Embedding of `enqueue_paths` (source lines 208–212): submit the batch to
the push session, propagating a rejection verbatim (the question-mark
operator), then return unit. -/
def enqueue_paths (state : State) (store_paths : List StorePath) :
    Except Error Unit :=
  match state.push_session.queue_many store_paths with
  | .error e => .error e
  | .ok _ => .ok ()

/-- The bytes appended to the netrc file during a run, in order. -/
def fileAppends (effects : List Effect) : List String :=
  effects.filterMap (fun e =>
    match e with
    | .fileAppend s => some s
    | _ => none)

/-- The HTTP GET targets of a run, in order. -/
def httpGets (effects : List Effect) : List String :=
  effects.filterMap (fun e =>
    match e with
    | .httpGet s => some s
    | _ => none)

/-- The netrc file's content after a run: append-only writing, so the final
content is the old content followed by every appended chunk in order. -/
def finalNetrc (old : String) (effects : List Effect) : String :=
  (fileAppends effects).foldl (fun acc s => acc ++ s) old

/-! Concrete fixtures used by the claim theorems and witnesses. -/

def apiUrl : Url :=
  { host := some "api.flakehub.com", text := "https://api.flakehub.com/" }

def cacheUrl : Url :=
  { host := some "cache.flakehub.com", text := "https://cache.flakehub.com/" }

def baseNetrc : String :=
  "machine api.flakehub.com login alice password sekret"

def stdDecodeProjectInfo : String → Option ProjectInfo := fun b =>
  if b = "project-info" then
    some { organization_uuid_v7 := "11111111-1111-1111-1111-111111111111",
           project_uuid_v7 := "22222222-2222-2222-2222-222222222222" }
  else none

def stdDecodeCacheConfig : String → Option CacheConfig := fun b =>
  some { raw := b }

def stdDecodeApiError : FetchResponse → Option ApiError := fun r =>
  some { payload := r.body }

/-- Environment of a fully successful bootstrap run. -/
def stdEnv : Env :=
  { netrcFile := some baseNetrc
    github_repository := some "acme/widgets"
    metadataResponse := .ok { status := 200, body := "project-info" }
    cacheConfigResponse := .ok { status := 200, body := "cache-config" }
    decodeProjectInfo := stdDecodeProjectInfo
    decodeCacheConfig := stdDecodeCacheConfig
    decodeApiError := stdDecodeApiError }

def c1Env : Env :=
  { stdEnv with cacheConfigResponse := .ok { status := 500, body := "namespace not found" } }

def c3PatchedNetrc : String :=
  baseNetrc ++ netrcAppendEntry "cache.flakehub.com" "alice" "sekret"

def c3Env : Env := { stdEnv with netrcFile := some c3PatchedNetrc }

def c4Env : Env :=
  { stdEnv with netrcFile := some "machine other.example.com login bob password pw" }

def c5EnvNoLogin : Env :=
  { stdEnv with netrcFile := some "machine api.flakehub.com password sekret" }

def c5EnvNoPassword : Env :=
  { stdEnv with netrcFile := some "machine api.flakehub.com login alice" }

def c7Env : Env :=
  { stdEnv with metadataResponse := .ok { status := 404, body := "not found" } }

def c8Env : Env := { stdEnv with github_repository := none }

def c9State : State :=
  { substituter := cacheUrl
    push_session :=
      { cache := "ns"
        cacheConfig := .ok { raw := "cache-config" }
        api := { endpoint := "https://cache.flakehub.com/", token := some "sekret" }
        config := push_config
        sessionConfig := push_session_config
        rejection := some (.config "push session shut down") } }

def c10NetrcContents : String :=
  "machine api.flakehub.com login alice password bad\x01secret"

def c10Env : Env := { stdEnv with netrcFile := some c10NetrcContents }

/-! Helper lemmas about the observable effects of a run, followed by the
claim theorems. -/

theorem fileAppends_nil : fileAppends [] = [] := rfl

theorem fileAppends_single (s : String) :
    fileAppends [Effect.fileAppend s] = [s] := rfl

theorem httpGets_nil : httpGets [] = [] := rfl

theorem httpGets_of_fileAppend (s : String) :
    httpGets [Effect.fileAppend s] = [] := rfl

theorem fileAppends_append (a b : List Effect) :
    fileAppends (a ++ b) = fileAppends a ++ fileAppends b := by
  simp [fileAppends]

theorem httpGets_append (a b : List Effect) :
    httpGets (a ++ b) = httpGets a ++ httpGets b := by
  simp [httpGets]

theorem fileAppends_cacheNameBlock (env : Env) (api : Url) :
    fileAppends (cacheNameBlock env api).2 = [] := by
  unfold cacheNameBlock
  rcases env.github_repository with _ | repo
  · simp [fileAppends]
  · rcases env.metadataResponse with e | r
    · simp [fileAppends]
    · by_cases hs : statusIsSuccess r.status
      · rcases hd : env.decodeProjectInfo r.body with _ | pi <;>
          simp [hd, hs, fileAppends]
      · simp [hs, fileAppends]

theorem fileAppends_cacheConfigBlock (env : Env) (cs : Url) (cache : String) :
    fileAppends (cacheConfigBlock env cs cache).2 = [] := by
  unfold cacheConfigBlock
  rcases env.cacheConfigResponse with e | r
  · simp [fileAppends]
  · by_cases hs : statusIsSuccess r.status
    · rcases hd : env.decodeCacheConfig r.body with _ | cfg <;>
        simp [hd, hs, fileAppends]
    · rcases hd : env.decodeApiError r with _ | ae <;> simp [hd, hs, fileAppends]

theorem fileAppends_initCacheSession (env : Env) (api cs : Url) (entry : Machine) :
    fileAppends (initCacheSession env api cs entry).2 = [] := by
  unfold initCacheSession
  rcases hcn : cacheNameBlock env api with ⟨res1, eff1⟩
  have he1 : fileAppends eff1 = [] := by
    have h := fileAppends_cacheNameBlock env api
    rw [hcn] at h
    exact h
  rcases res1 with e | cache
  · simpa using he1
  · rcases hcc : cacheConfigBlock env cs cache with ⟨res2, eff2⟩
    have he2 : fileAppends eff2 = [] := by
      have h := fileAppends_cacheConfigBlock env cs cache
      rw [hcc] at h
      exact h
    rcases res2 with e | cfg <;> simp [hcc, fileAppends_append, he1, he2]

theorem cacheNameBlock_no_repo (env : Env) (api : Url)
    (h : env.github_repository = none) :
    cacheNameBlock env api =
      (.error (.config "GITHUB_REPOSITORY environment variable is not set"),
       []) := by
  simp [cacheNameBlock, h]

theorem cacheNameBlock_bad_status (env : Env) (api : Url) (repo : String)
    (resp : FetchResponse)
    (hrepo : env.github_repository = some repo)
    (hresp : env.metadataResponse = .ok resp)
    (hstatus : statusIsSuccess resp.status = false) :
    cacheNameBlock env api =
      (.error (.getCacheName resp.status resp.body),
       [.httpGet (api.text ++ ("project/" ++ repo))]) := by
  simp [cacheNameBlock, hrepo, hresp, hstatus, Url.join]

theorem cacheNameBlock_success (env : Env) (api : Url) (repo org proj : String)
    (resp : FetchResponse)
    (hrepo : env.github_repository = some repo)
    (hresp : env.metadataResponse = .ok resp)
    (hstatus : statusIsSuccess resp.status = true)
    (hdecode : env.decodeProjectInfo resp.body =
        some { organization_uuid_v7 := org, project_uuid_v7 := proj }) :
    cacheNameBlock env api =
      (.ok (org ++ ":" ++ proj),
       [.httpGet (api.text ++ ("project/" ++ repo))]) := by
  simp [cacheNameBlock, hrepo, hresp, hstatus, hdecode, Url.join]

theorem httpGets_cacheConfigBlock (env : Env) (cs : Url) (cache : String) :
    httpGets (cacheConfigBlock env cs cache).2 =
      [cs.text ++ "_api/v1/cache-config/" ++ cache] := by
  unfold cacheConfigBlock
  rcases env.cacheConfigResponse with e | r
  · simp [httpGets, Url.join]
  · by_cases hs : statusIsSuccess r.status
    · rcases hd : env.decodeCacheConfig r.body with _ | cfg <;>
        simp [hd, hs, httpGets, Url.join]
    · rcases hd : env.decodeApiError r with _ | ae <;>
        simp [hd, hs, httpGets, Url.join]

theorem initCacheSession_ok_cache (env : Env) (api cs : Url) (entry : Machine)
    (cache : String) (eff1 : List Effect)
    (hcn : cacheNameBlock env api = (.ok cache, eff1)) :
    httpGets (initCacheSession env api cs entry).2 =
      httpGets eff1 ++ [cs.text ++ "_api/v1/cache-config/" ++ cache] ∧
    ∀ st : State, (initCacheSession env api cs entry).1 = .ok st →
      st.push_session.cache = cache := by
  unfold initCacheSession
  rw [hcn]
  rcases hcc : cacheConfigBlock env cs cache with ⟨res2, eff2⟩
  have hg2 : httpGets eff2 = [cs.text ++ "_api/v1/cache-config/" ++ cache] := by
    have h := httpGets_cacheConfigBlock env cs cache
    rw [hcc] at h
    exact h
  rcases res2 with e | cfg
  · constructor
    · simp [hcc, httpGets_append, hg2]
    · intro st hst
      simp [hcc] at hst
  · constructor
    · simp [hcc, httpGets_append, hg2]
    · intro st hst
      simp [hcc] at hst
      rw [← hst]
      simp [mkPushSession]

theorem init_cache_after_creds (env : Env) (api cs : Url)
    (contents host login password : String) (entry : Machine)
    (hfile : env.netrcFile = some contents)
    (hfind : (netrcMachines contents).find?
        (fun machine => machine.name == api.host) = some entry)
    (hhost : cs.host = some host)
    (hlogin : entry.login = some login)
    (hpass : entry.password = some password) :
    init_cache env api cs =
      (let appendEffects : List Effect :=
        if (netrcMachines contents).any
            (fun machine => machine.name == some host)
        then []
        else [.fileAppend (netrcAppendEntry host login password)]
      match build_http_client password with
      | none => (.panicked "HeaderValue from_str unwrap failed", appendEffects)
      | some _c =>
          let rest := initCacheSession env api cs entry
          (rest.1, appendEffects ++ rest.2)) := by
  simp only [init_cache, hfile, hfind, hhost, hlogin, hpass]

/-- C1: at a bootstrap run whose cache-config GET returns a non-2xx status
with a decodable structured API error, init_cache does not fail — the code
binds the decoded error into the cache_config value (the source block has no
trailing question mark) and builds the push session anyway, returning
success with the API error inside the session. -/
theorem c1_cache_config_error_is_dropped :
    ∃ st : State, (init_cache c1Env apiUrl cacheUrl).1 = .ok st ∧
      st.push_session.cacheConfig =
        .error (.api { payload := "namespace not found" }) := by
  refine ⟨_, rfl, ?_⟩
  decide

/-- C2 counterexample: the appended chunk starts with a separator newline,
so it is not exactly the entry line followed by a trailing blank line. -/
theorem c2_counterexample :
    fileAppends (init_cache stdEnv apiUrl cacheUrl).2 =
      ["\nmachine cache.flakehub.com login alice password sekret\n\n"] ∧
    fileAppends (init_cache stdEnv apiUrl cacheUrl).2 ≠
      ["machine cache.flakehub.com login alice password sekret\n\n"] := by
  constructor
  · decide
  · decide

/-- C2 (amended): when the parsed credential file has no entry for the cache
server host, init_cache appends exactly one chunk — a separator newline, the
machine-login-password entry line, and a trailing blank line — and the
pre-existing content stays byte-for-byte unchanged as a prefix. -/
theorem c2_appends_single_entry (env : Env) (api cs : Url)
    (contents host login password : String) (entry : Machine)
    (hfile : env.netrcFile = some contents)
    (hfind : (netrcMachines contents).find?
        (fun machine => machine.name == api.host) = some entry)
    (hhost : cs.host = some host)
    (hlogin : entry.login = some login)
    (hpass : entry.password = some password)
    (hmiss : (netrcMachines contents).any
        (fun machine => machine.name == some host) = false) :
    fileAppends (init_cache env api cs).2 =
      [netrcAppendEntry host login password] ∧
    finalNetrc contents (init_cache env api cs).2 =
      contents ++ netrcAppendEntry host login password := by
  have key : fileAppends (init_cache env api cs).2 =
      [netrcAppendEntry host login password] := by
    rw [init_cache_after_creds env api cs contents host login password entry
      hfile hfind hhost hlogin hpass]
    rcases hb : build_http_client password with _ | c
    · simp only [hb, hmiss]
      simp [fileAppends_single]
    · simp only [hb, hmiss]
      simp only [Bool.false_eq_true, if_false, fileAppends_append,
        fileAppends_initCacheSession, fileAppends_single, List.append_nil]
  refine ⟨key, ?_⟩
  simp [finalNetrc, key]

theorem c2_witness :
    fileAppends (init_cache stdEnv apiUrl cacheUrl).2 =
      ["\nmachine cache.flakehub.com login alice password sekret\n\n"] ∧
    finalNetrc baseNetrc (init_cache stdEnv apiUrl cacheUrl).2 =
      "machine api.flakehub.com login alice password sekret\nmachine cache.flakehub.com login alice password sekret\n\n" :=
  c2_appends_single_entry stdEnv apiUrl cacheUrl baseNetrc
    "cache.flakehub.com" "alice" "sekret"
    { name := some "api.flakehub.com", login := some "alice",
      password := some "sekret" }
    rfl (by decide) rfl rfl rfl (by decide)

/-- C3: whenever the parsed credential file already contains an entry whose
host equals the cache-server host, init_cache performs no write at all, so
the final file content equals the initial one and a second bootstrap run
leaves the file exactly as a single run does. -/
theorem c3_no_write_when_entry_present (env : Env) (api cs : Url)
    (contents host : String)
    (hfile : env.netrcFile = some contents)
    (hhost : cs.host = some host)
    (hpresent : (netrcMachines contents).any
        (fun machine => machine.name == some host) = true) :
    fileAppends (init_cache env api cs).2 = [] ∧
    finalNetrc contents (init_cache env api cs).2 = contents := by
  have key : fileAppends (init_cache env api cs).2 = [] := by
    rcases hf : (netrcMachines contents).find?
        (fun machine => machine.name == api.host) with _ | entry
    · simp only [init_cache, hfile, hf]
      rfl
    · rcases hl : entry.login with _ | l
      · simp only [init_cache, hfile, hf, hhost, hl]
        rfl
      · rcases hp : entry.password with _ | p
        · simp only [init_cache, hfile, hf, hhost, hl, hp]
          rfl
        · rcases hb : build_http_client p with _ | c
          · simp only [init_cache, hfile, hf, hhost, hl, hp, hb, hpresent]
            simp [fileAppends_nil]
          · simp only [init_cache, hfile, hf, hhost, hl, hp, hb, hpresent]
            simp [fileAppends_initCacheSession]
  refine ⟨key, ?_⟩
  simp [finalNetrc, key]

theorem c3_witness :
    finalNetrc baseNetrc (init_cache stdEnv apiUrl cacheUrl).2 = c3PatchedNetrc ∧
    fileAppends (init_cache c3Env apiUrl cacheUrl).2 = [] ∧
    finalNetrc c3PatchedNetrc (init_cache c3Env apiUrl cacheUrl).2 = c3PatchedNetrc := by
  refine ⟨by decide, ?_, ?_⟩
  · exact (c3_no_write_when_entry_present c3Env apiUrl cacheUrl c3PatchedNetrc
      "cache.flakehub.com" rfl rfl (by decide)).1
  · exact (c3_no_write_when_entry_present c3Env apiUrl cacheUrl c3PatchedNetrc
      "cache.flakehub.com" rfl rfl (by decide)).2

/-- C4: when no netrc entry matches the metadata server host, init_cache
fails with the missing-credentials error naming the metadata server URL and
performs no effect at all — no credential-file write and no HTTP request. -/
theorem c4_missing_creds_fails_first (env : Env) (api cs : Url) (contents : String)
    (hfile : env.netrcFile = some contents)
    (hfind : (netrcMachines contents).find?
        (fun machine => machine.name == api.host) = none) :
    init_cache env api cs = (.err (.missingCreds api.text), []) := by
  simp [init_cache, hfile, hfind]

theorem c4_witness :
    init_cache c4Env apiUrl cacheUrl =
      (.err (.missingCreds "https://api.flakehub.com/"), []) :=
  c4_missing_creds_fails_first c4Env apiUrl cacheUrl
    "machine other.example.com login bob password pw" rfl (by decide)

/-- C5: with an entry for the metadata host present, a missing login yields
the bad-configuration error naming the login field, and (login present) a
missing password yields the bad-configuration error naming the password
field; the checks are sequential but independent, so the message always
names the absent field. -/
theorem c5_error_names_missing_field (env : Env) (api cs : Url)
    (contents host : String) (entry : Machine)
    (hfile : env.netrcFile = some contents)
    (hfind : (netrcMachines contents).find?
        (fun machine => machine.name == api.host) = some entry)
    (hhost : cs.host = some host) :
    (entry.login = none →
      init_cache env api cs = (.err (.config
        ("netrc file does not contain a login for \x27" ++ api.text ++ "\x27")), [])) ∧
    (∀ l, entry.login = some l → entry.password = none →
      init_cache env api cs = (.err (.config
        ("netrc file does not contain a password for \x27" ++ api.text ++ "\x27")), [])) := by
  constructor
  · intro hl
    simp [init_cache, hfile, hfind, hhost, hl]
  · intro l hl hp
    simp [init_cache, hfile, hfind, hhost, hl, hp]

theorem c5_witness :
    init_cache c5EnvNoLogin apiUrl cacheUrl = (.err (.config
      "netrc file does not contain a login for \x27https://api.flakehub.com/\x27"), []) ∧
    init_cache c5EnvNoPassword apiUrl cacheUrl = (.err (.config
      "netrc file does not contain a password for \x27https://api.flakehub.com/\x27"), []) :=
  ⟨(c5_error_names_missing_field c5EnvNoLogin apiUrl cacheUrl
      "machine api.flakehub.com password sekret" "cache.flakehub.com"
      { name := some "api.flakehub.com", login := none, password := some "sekret" }
      rfl (by decide) rfl).1 rfl,
   (c5_error_names_missing_field c5EnvNoPassword apiUrl cacheUrl
      "machine api.flakehub.com login alice" "cache.flakehub.com"
      { name := some "api.flakehub.com", login := some "alice", password := none }
      rfl (by decide) rfl).2 "alice" rfl rfl⟩

/-- C6: on a successful metadata response decoding to organization UUID org
and project UUID proj, the derived namespace is exactly org, a colon, proj —
observable both in the cache-config GET target and in the cache name of any
resulting push session. -/
theorem c6_namespace_is_org_colon_project (env : Env) (api cs : Url)
    (contents host login password repo org proj : String)
    (entry : Machine) (resp : FetchResponse)
    (hfile : env.netrcFile = some contents)
    (hfind : (netrcMachines contents).find?
        (fun machine => machine.name == api.host) = some entry)
    (hhost : cs.host = some host)
    (hlogin : entry.login = some login)
    (hpass : entry.password = some password)
    (hclient : isValidHeaderValue ("Bearer " ++ password) = true)
    (hrepo : env.github_repository = some repo)
    (hresp : env.metadataResponse = .ok resp)
    (hstatus : statusIsSuccess resp.status = true)
    (hdecode : env.decodeProjectInfo resp.body =
        some { organization_uuid_v7 := org, project_uuid_v7 := proj }) :
    httpGets (init_cache env api cs).2 =
      [api.text ++ ("project/" ++ repo),
       cs.text ++ "_api/v1/cache-config/" ++ (org ++ ":" ++ proj)] ∧
    ∀ st : State, (init_cache env api cs).1 = .ok st →
      st.push_session.cache = org ++ ":" ++ proj := by
  rw [init_cache_after_creds env api cs contents host login password entry
    hfile hfind hhost hlogin hpass]
  have hcn := cacheNameBlock_success env api repo org proj resp hrepo hresp
    hstatus hdecode
  obtain ⟨hg, hok⟩ := initCacheSession_ok_cache env api cs entry
    (org ++ ":" ++ proj) [.httpGet (api.text ++ ("project/" ++ repo))] hcn
  have hbc : build_http_client password =
      some { authorization := "Bearer " ++ password } := by
    simp [build_http_client, hclient]
  simp only [hbc]
  constructor
  · rw [httpGets_append, hg]
    by_cases hany : ((netrcMachines contents).any
        (fun machine => machine.name == some host)) = true <;>
      simp [hany, httpGets]
  · intro st hst
    exact hok st hst

theorem c6_witness :
    httpGets (init_cache stdEnv apiUrl cacheUrl).2 =
      ["https://api.flakehub.com/project/acme/widgets",
       "https://cache.flakehub.com/_api/v1/cache-config/11111111-1111-1111-1111-111111111111:22222222-2222-2222-2222-222222222222"] ∧
    ∀ st : State, (init_cache stdEnv apiUrl cacheUrl).1 = .ok st →
      st.push_session.cache =
        "11111111-1111-1111-1111-111111111111:22222222-2222-2222-2222-222222222222" :=
  c6_namespace_is_org_colon_project stdEnv apiUrl cacheUrl baseNetrc
    "cache.flakehub.com" "alice" "sekret" "acme/widgets"
    "11111111-1111-1111-1111-111111111111"
    "22222222-2222-2222-2222-222222222222"
    { name := some "api.flakehub.com", login := some "alice",
      password := some "sekret" }
    { status := 200, body := "project-info" }
    rfl (by decide) rfl rfl rfl (by decide) rfl rfl (by decide) (by decide)

/-- C7: a non-success metadata response makes init_cache fail with the
get-cache-name error carrying exactly the response status and body. -/
theorem c7_metadata_error_carries_status_and_body (env : Env) (api cs : Url)
    (contents host login password repo : String)
    (entry : Machine) (resp : FetchResponse)
    (hfile : env.netrcFile = some contents)
    (hfind : (netrcMachines contents).find?
        (fun machine => machine.name == api.host) = some entry)
    (hhost : cs.host = some host)
    (hlogin : entry.login = some login)
    (hpass : entry.password = some password)
    (hclient : isValidHeaderValue ("Bearer " ++ password) = true)
    (hrepo : env.github_repository = some repo)
    (hresp : env.metadataResponse = .ok resp)
    (hstatus : statusIsSuccess resp.status = false) :
    (init_cache env api cs).1 = .err (.getCacheName resp.status resp.body) := by
  rw [init_cache_after_creds env api cs contents host login password entry
    hfile hfind hhost hlogin hpass]
  have hcn := cacheNameBlock_bad_status env api repo resp hrepo hresp hstatus
  have hbc : build_http_client password =
      some { authorization := "Bearer " ++ password } := by
    simp [build_http_client, hclient]
  simp only [hbc]
  simp [initCacheSession, hcn]

theorem c7_witness :
    (init_cache c7Env apiUrl cacheUrl).1 = .err (.getCacheName 404 "not found") :=
  c7_metadata_error_carries_status_and_body c7Env apiUrl cacheUrl baseNetrc
    "cache.flakehub.com" "alice" "sekret" "acme/widgets"
    { name := some "api.flakehub.com", login := some "alice",
      password := some "sekret" }
    { status := 404, body := "not found" }
    rfl (by decide) rfl rfl rfl (by decide) rfl rfl (by decide)

/-- C8: with GITHUB_REPOSITORY unset, init_cache fails with the
configuration error and no HTTP request is issued at any point in the run. -/
theorem c8_missing_repo_env_no_network (env : Env) (api cs : Url)
    (contents host login password : String) (entry : Machine)
    (hfile : env.netrcFile = some contents)
    (hfind : (netrcMachines contents).find?
        (fun machine => machine.name == api.host) = some entry)
    (hhost : cs.host = some host)
    (hlogin : entry.login = some login)
    (hpass : entry.password = some password)
    (hclient : isValidHeaderValue ("Bearer " ++ password) = true)
    (hrepo : env.github_repository = none) :
    (init_cache env api cs).1 =
      .err (.config "GITHUB_REPOSITORY environment variable is not set") ∧
    httpGets (init_cache env api cs).2 = [] := by
  rw [init_cache_after_creds env api cs contents host login password entry
    hfile hfind hhost hlogin hpass]
  have hbc : build_http_client password =
      some { authorization := "Bearer " ++ password } := by
    simp [build_http_client, hclient]
  have hsess : initCacheSession env api cs entry =
      (.err (.config "GITHUB_REPOSITORY environment variable is not set"), []) := by
    simp [initCacheSession, cacheNameBlock_no_repo env api hrepo]
  simp only [hbc, hsess]
  constructor
  · trivial
  · by_cases hany : ((netrcMachines contents).any
        (fun machine => machine.name == some host)) = true <;>
      simp [hany, httpGets]

theorem c8_witness :
    (init_cache c8Env apiUrl cacheUrl).1 =
      .err (.config "GITHUB_REPOSITORY environment variable is not set") ∧
    httpGets (init_cache c8Env apiUrl cacheUrl).2 = [] :=
  c8_missing_repo_env_no_network c8Env apiUrl cacheUrl baseNetrc
    "cache.flakehub.com" "alice" "sekret"
    { name := some "api.flakehub.com", login := some "alice",
      password := some "sekret" }
    rfl (by decide) rfl rfl rfl (by decide) rfl

/-- C9: for every State, enqueueing the empty batch succeeds with no effect,
and whenever the push session rejects a non-empty batch its rejection error
is returned to the caller unchanged. -/
theorem c9_enqueue_contract (st : State) :
    enqueue_paths st [] = .ok () ∧
    ∀ e ps, st.push_session.rejection = some e → ps ≠ [] →
      enqueue_paths st ps = .error e := by
  constructor
  · rfl
  · intro e ps hrej hne
    have hq : st.push_session.queue_many ps = .error e := by
      simp [PushSession.queue_many, List.isEmpty_iff, hne, hrej]
    simp [enqueue_paths, hq]

theorem c9_witness :
    enqueue_paths c9State [] = .ok () ∧
    enqueue_paths c9State ["/nix/store/aaaaaaaaaaaaaaaaaaaaaaaaaaaaaaaa-hello"] =
      .error (.config "push session shut down") :=
  ⟨(c9_enqueue_contract c9State).1,
   (c9_enqueue_contract c9State).2 (.config "push session shut down")
     ["/nix/store/aaaaaaaaaaaaaaaaaaaaaaaaaaaaaaaa-hello"] rfl (by decide)⟩

/-- C10: when the resolved secret renders to an invalid HTTP header value,
init_cache reaches the client-building step and panics through the unwrap in
build_http_client instead of returning a typed error. -/
theorem c10_panics_on_invalid_header_secret (env : Env) (api cs : Url)
    (contents host login password : String) (entry : Machine)
    (hfile : env.netrcFile = some contents)
    (hfind : (netrcMachines contents).find?
        (fun machine => machine.name == api.host) = some entry)
    (hhost : cs.host = some host)
    (hlogin : entry.login = some login)
    (hpass : entry.password = some password)
    (hinvalid : isValidHeaderValue ("Bearer " ++ password) = false) :
    (init_cache env api cs).1 = .panicked "HeaderValue from_str unwrap failed" := by
  rw [init_cache_after_creds env api cs contents host login password entry
    hfile hfind hhost hlogin hpass]
  have hbc : build_http_client password = none := by
    simp [build_http_client, hinvalid]
  simp [hbc]

theorem c10_witness :
    (init_cache c10Env apiUrl cacheUrl).1 =
      .panicked "HeaderValue from_str unwrap failed" :=
  c10_panics_on_invalid_header_secret c10Env apiUrl cacheUrl
    c10NetrcContents
    "cache.flakehub.com" "alice" "bad\x01secret"
    { name := some "api.flakehub.com", login := some "alice",
      password := some "bad\x01secret" }
    rfl (by decide) rfl rfl rfl (by decide)

end MagicNixCache
